import Mathlib

/-!
Verification of the tile-geometry decoding and projection pipeline of harp.gl.

The decoder (`VTJsonDataAdapter.ts`) is embedded over `ℚ`: every arithmetic
operation it performs (addition, multiplication, division, powers of two,
comparisons with the integer constants `0` and `4096`) is exact on the
IEEE doubles the source uses for the inputs the claims quantify over, so
rational arithmetic is a faithful model.  The planar projection
(`IdentityProjection.ts`) multiplies by `π/180` and is embedded over `ℝ`.

External dependencies of the decoder that are not part of the sources under
verification (`lat2tile` from `OmvUtils`, the constant
`EarthConstants.EQUATORIAL_CIRCUMFERENCE`) are taken as parameters: the
decoder only ever applies them, so every theorem below holds for the actual
implementations by instantiation.
-/

namespace HarpGL

/-! ### Data model of `VTJsonDataAdapter.ts` -/

/-- `three.js` `Vector3` as produced by the decoder (components are JS numbers). -/
structure Vector3 where
  x : ℚ
  y : ℚ
  z : ℚ
deriving DecidableEq, Repr

/-- `type VTJsonPosition = [number, number]` — a tile-local coordinate pair. -/
abbrev VTJsonPosition := ℚ × ℚ

/-- `enum VTJsonGeometryType { Unknown, Point, LineString, Polygon }`. -/
inductive VTJsonGeometryType where
  | Unknown
  | Point
  | LineString
  | Polygon
deriving DecidableEq, Repr

/-- The union type `VTJsonPosition[] | VTJsonPosition[][]` of the `geometry`
field of `VTJsonFeatureInterface`. -/
inductive VTJsonGeometry where
  | positions (ps : List VTJsonPosition)
  | paths (ls : List (List VTJsonPosition))
deriving DecidableEq, Repr

/-- `VTJsonFeatureInterface`.  Tags are modelled as a string-keyed association
list of numeric values; the decoder only copies them into the environment. -/
structure VTJsonFeature where
  geometry : VTJsonGeometry
  id : String
  tags : List (String × ℚ)
  type : VTJsonGeometryType
deriving DecidableEq, Repr

/-- The fields of `VTJsonTileInterface` read by `process`
(`tile.features` and `tile.layer`). -/
structure VTJsonTile where
  features : List VTJsonFeature
  layer : String
deriving DecidableEq, Repr

/-- `VTJsonSourceInterface` (only its presence matters to `canProcess`). -/
structure VTJsonSource where
  geometry : List ℚ
  length : ℚ
  id : String
  maxX : ℚ
  maxY : ℚ
  minX : ℚ
  minY : ℚ
  type : String
deriving DecidableEq, Repr

/-- The view of an arbitrary input object taken by `canProcess`: each field of
`VTJsonTileInterface` it tests may be present (`some`) or `undefined` (`none`). -/
structure VTJsonTileData where
  features : Option (List VTJsonFeature)
  source : Option (List VTJsonSource)
  x : Option ℤ
  y : Option ℤ
  z : Option ℤ
deriving DecidableEq, Repr

/-- Input to `canProcess`: `ArrayBufferLike | {}`.  A raw binary buffer is
discriminated by `isArrayBufferLike` in the source; in this embedding the
discrimination is the constructor of the sum. -/
inductive AdapterData where
  | arrayBuffer (byteLength : ℕ)
  | obj (tile : VTJsonTileData)
deriving DecidableEq, Repr

/-- `ILineGeometry`. -/
structure ILineGeometry where
  positions : List Vector3
deriving DecidableEq, Repr

/-- `IRing`: world-space ring positions plus one outline flag per edge. -/
structure IRing where
  positions : List Vector3
  outlines : List Bool
deriving DecidableEq, Repr

/-- `IPolygonGeometry`. -/
structure IPolygonGeometry where
  rings : List IRing
deriving DecidableEq, Repr

/-- The `MapEnv` built per feature: the feature tags together with the
synthesized attributes `$layer`, `$geometryType` and `$level`. -/
structure MapEnv where
  tags : List (String × ℚ)
  layer : String
  geometryType : String
  level : ℕ
deriving DecidableEq, Repr

/-- One call into the `IGeometryProcessor` interface. -/
inductive ProcessorCall where
  | pointFeature (layer : String) (positions : List Vector3) (env : MapEnv) (level : ℕ)
  | lineFeature (layer : String) (lines : List ILineGeometry) (env : MapEnv) (level : ℕ)
  | polygonFeature (layer : String) (polygons : List IPolygonGeometry) (env : MapEnv)
      (level : ℕ)
deriving DecidableEq, Repr

/-! ### Operations of `VTJsonDataAdapter` -/

/-- `VTJsonDataAdapter.canProcess`: rejects raw binary buffers and objects
missing any of the fields `features`, `source`, `x`, `y`, `z`. -/
def canProcess : AdapterData → Bool
  | .arrayBuffer _ => false
  | .obj tile =>
    if tile.features = none ∨ tile.source = none ∨ tile.x = none ∨ tile.y = none ∨
        tile.z = none then
      false
    else
      true

/-- `VTJsonDataAdapter.convertGeometryType`. -/
def convertGeometryType : VTJsonGeometryType → String
  | .Point => "point"
  | .LineString => "line"
  | .Polygon => "polygon"
  | .Unknown => "unknown"

/-- The environment built at the top of the feature loop of `process`. -/
def mkEnv (tags : List (String × ℚ)) (layer : String) (geometryType : String)
    (level : ℕ) : MapEnv :=
  { tags := tags, layer := layer, geometryType := geometryType, level := level }

/-- The world-space position `new Vector3(((left + x) / scale) * R,
((top + y) / scale) * R, 0)` computed identically in the `Point`,
`LineString` and `Polygon` branches of `process`. -/
def worldPos (left top scale R : ℚ) (p : VTJsonPosition) : Vector3 :=
  ⟨((left + p.1) / scale) * R, ((top + p.2) / scale) * R, 0⟩

/-- The outline flag pushed for edge `i` of a polygon ring: `true` unless both
endpoints lie on the same one of the four tile borders. -/
def outlineFlag (extent : ℚ) (outline : List VTJsonPosition) (i : ℕ) : Bool :=
  let curr := outline.getD i (0, 0)
  let next := outline.getD ((i + 1) % outline.length) (0, 0)
  ! (decide ((curr.1 = 0 ∧ next.1 = 0) ∨ (curr.1 = extent ∧ next.1 = extent) ∨
      (curr.2 = 0 ∧ next.2 = 0) ∨ (curr.2 = extent ∧ next.2 = extent)))

/-- The `IRing` built for one `outline` of a polygon feature: one transformed
position and one outline flag per vertex. -/
def buildRing (left top scale R extent : ℚ) (outline : List VTJsonPosition) : IRing :=
  { positions := outline.map (worldPos left top scale R),
    outlines := (List.range outline.length).map (outlineFlag extent outline) }

/-- The running bounding-box state of a polygon ring: `minX`/`minY` start at
`Infinity` (modelled by `none`) and `maxX`/`maxY` start at `0`. -/
structure RingBBox where
  minX : Option ℚ
  minY : Option ℚ
  maxX : ℚ
  maxY : ℚ
deriving DecidableEq, Repr

/-- `Math.min` against a possibly-`Infinity` accumulator. -/
def minOpt : Option ℚ → ℚ → Option ℚ
  | none, v => some v
  | some m, v => some (min m v)

/-- Whether, after a ring completes, the accumulated bounding box equals
`[0, 0, extent, extent]`.  The accumulation is guarded per vertex by
`polygon.rings.length > 0`, which is constant during one ring; `guard` is
that constant. -/
def ringCoversTile (extent : ℚ) (guard : Bool) (outline : List VTJsonPosition) : Bool :=
  let st := outline.foldl
    (fun (st : RingBBox) p =>
      if guard then
        { minX := minOpt st.minX p.1, minY := minOpt st.minY p.2,
          maxX := max st.maxX p.1, maxY := max st.maxY p.2 }
      else st)
    { minX := none, minY := none, maxX := 0, maxY := 0 }
  decide (st.minX = some 0 ∧ st.minY = some 0 ∧ st.maxX = extent ∧ st.maxY = extent)

/-- The ring loop of the `Polygon` branch: builds each ring, and if the
completed ring's bounding box spans the full tile the whole polygon is
invalidated (`none`, the `break` with `polygonValid = false`); otherwise the
ring is pushed and the loop continues. -/
def processRings (left top scale R extent : ℚ) :
    List (List VTJsonPosition) → List IRing → Option (List IRing)
  | [], acc => some acc
  | outline :: rest, acc =>
    let ring := buildRing left top scale R extent outline
    if ringCoversTile extent (decide (0 < acc.length)) outline then
      none
    else
      processRings left top scale R extent rest (acc ++ [ring])

/-- `scale = Math.pow(2, tileKey.level + N)` where
`N = Math.log2(extent) = Math.log2(4096) = 12` (exact on doubles). -/
def tileScale (level : ℕ) : ℚ := 2 ^ (level + 12)

/-- `top = lat2tile(north, tileKey.level + N)`. -/
def tileTop (lat2tile : ℚ → ℕ → ℚ) (level : ℕ) (north : ℚ) : ℚ :=
  lat2tile north (level + 12)

/-- `left = ((west + 180) / 360) * scale`. -/
def tileLeft (level : ℕ) (west : ℚ) : ℚ :=
  ((west + 180) / 360) * tileScale level

/-- The body of the feature loop of `process`.  `lat2tile` and `R` are the
external `OmvUtils.lat2tile` and `EarthConstants.EQUATORIAL_CIRCUMFERENCE`;
`west` and `north` are the fields destructured from `geoBox`, and `level` is
`tileKey.level`.  The constants `extent = 4096`, `scale`, `top` and `left`
are loop-invariant in the source and recomputed here.  A feature whose
`geometry` shape does not match its `type` tag is outside the adapter's
input contract and yields no calls. -/
def processFeature (lat2tile : ℚ → ℕ → ℚ) (R : ℚ) (layer : String) (level : ℕ)
    (west north : ℚ) (feature : VTJsonFeature) : List ProcessorCall :=
  let extent : ℚ := 4096
  let scale : ℚ := tileScale level
  let top : ℚ := tileTop lat2tile level north
  let left : ℚ := tileLeft level west
  let env : MapEnv := mkEnv feature.tags layer (convertGeometryType feature.type) level
  match feature.type, feature.geometry with
  | .Point, .positions ps =>
    ps.map fun p => ProcessorCall.pointFeature layer [worldPos left top scale R p] env level
  | .LineString, .paths ls =>
    ls.map fun lineGeometry =>
      ProcessorCall.lineFeature layer
        [{ positions := lineGeometry.map (worldPos left top scale R) }] env level
  | .Polygon, .paths rings =>
    match processRings left top scale R extent rings [] with
    | some rs => [ProcessorCall.polygonFeature layer [{ rings := rs }] env level]
    | none => []
  | .Unknown, _ => []
  | _, _ => []

/-- `VTJsonDataAdapter.process`: the sequence of geometry-processor calls made
for one tile, in feature order. -/
def process (lat2tile : ℚ → ℕ → ℚ) (R : ℚ) (tile : VTJsonTile) (level : ℕ)
    (west north : ℚ) : List ProcessorCall :=
  tile.features.flatMap (processFeature lat2tile R tile.layer level west north)

/-- The world-space position formula as the specification states it:
`(((left + x) / scale) * R, ((top + y) / scale) * R, 0)` with
`scale = 2^(level + log2 4096)`, `left = ((west + 180) / 360) * scale` and
`top = lat2tile north (level + log2 4096)`.  Written out independently of the
decoder definitions above, to be compared against what `process` emits. -/
def specWorldPos (lat2tile : ℚ → ℕ → ℚ) (R : ℚ) (level : ℕ) (west north : ℚ)
    (p : VTJsonPosition) : Vector3 :=
  let scale : ℚ := 2 ^ (level + 12)
  let left : ℚ := ((west + 180) / 360) * scale
  let top : ℚ := lat2tile north (level + 12)
  ⟨((left + p.1) / scale) * R, ((top + p.2) / scale) * R, 0⟩

/-! ### Data model of `IdentityProjection.ts` -/

/-- `Vector3Like` world coordinates of the projection layer (JS numbers,
modelled over `ℝ` because the projection multiplies by `π/180`). -/
structure Vector3Like where
  x : ℝ
  y : ℝ
  z : ℝ

/-- `GeoCoordinates`: latitude and longitude in degrees, optional altitude in
meters (`none` models an `undefined` altitude). -/
structure GeoCoordinates where
  latitude : ℝ
  longitude : ℝ
  altitude : Option ℝ

/-- `GeoBox` as consumed by `projectBox`: the four geographic bounds plus the
altitude range. -/
structure GeoBox where
  south : ℝ
  west : ℝ
  north : ℝ
  east : ℝ
  minAltitude : ℝ
  maxAltitude : ℝ

/-- `Box3Like`: an axis-aligned box given by its min and max corners. -/
structure Box3Like where
  min : Vector3Like
  max : Vector3Like

/-- `OrientedBox3Like`: a box given by center position, half-extents and the
three axes. -/
structure OrientedBox3Like where
  position : Vector3Like
  extents : Vector3Like
  xAxis : Vector3Like
  yAxis : Vector3Like
  zAxis : Vector3Like

/-- `Number.EPSILON = 2^{-52}`, the clamp used for the oriented box's z
half-extent. -/
noncomputable def EPSILON : ℝ := 1 / 2 ^ 52

namespace IdentityProjection

/-- `const DEG2RAD = Math.PI / 180`. -/
noncomputable def DEG2RAD : ℝ := Real.pi / 180

/-- `IdentityProjection.projectPoint` (with no caller-provided result object):
degrees to radians on x/y, `altitude || 0` on z. -/
noncomputable def projectPoint (geoPoint : GeoCoordinates) : Vector3Like :=
  ⟨geoPoint.longitude * DEG2RAD, geoPoint.latitude * DEG2RAD, geoPoint.altitude.getD 0⟩

/-- Modelled from the spec: `GeoCoordinates.fromRadians` is not among the
sources under verification; per the spec `unprojectPoint` is the "exact
inverse (radians→degrees conversion)" of `projectPoint` and "reconstructs
altitude from `world.z`", so `fromRadians` converts its latitude/longitude
arguments from radians to degrees and stores the given altitude. -/
noncomputable def GeoCoordinates.fromRadians (latitude longitude altitude : ℝ) :
    GeoCoordinates :=
  ⟨latitude * (180 / Real.pi), longitude * (180 / Real.pi), some altitude⟩

/-- `IdentityProjection.unprojectPoint`:
`GeoCoordinates.fromRadians(worldPoint.y, worldPoint.x, worldPoint.z)`. -/
noncomputable def unprojectPoint (worldPoint : Vector3Like) : GeoCoordinates :=
  GeoCoordinates.fromRadians worldPoint.y worldPoint.x worldPoint.z

/-- `IdentityProjection.projectBox` when the caller requests an axis-aligned
`Box3Like` result: the projected south-west-min and north-east-max corners are
copied to `min` and `max` unchanged. -/
noncomputable def projectBoxBox3 (geoBox : GeoBox) : Box3Like :=
  let mn := projectPoint ⟨geoBox.south, geoBox.west, some geoBox.minAltitude⟩
  let mx := projectPoint ⟨geoBox.north, geoBox.east, some geoBox.maxAltitude⟩
  { min := mn, max := mx }

/-- `IdentityProjection.projectBox` when the caller requests an
`OrientedBox3Like` result: unit axes, midpoint position, half-extents with the
z half-extent clamped to `Number.EPSILON` from below. -/
noncomputable def projectBoxOriented (geoBox : GeoBox) : OrientedBox3Like :=
  let mn := projectPoint ⟨geoBox.south, geoBox.west, some geoBox.minAltitude⟩
  let mx := projectPoint ⟨geoBox.north, geoBox.east, some geoBox.maxAltitude⟩
  { position := ⟨(mn.x + mx.x) * (1 / 2), (mn.y + mx.y) * (1 / 2), (mn.z + mx.z) * (1 / 2)⟩,
    extents := ⟨(mx.x - mn.x) * (1 / 2), (mx.y - mn.y) * (1 / 2),
      max EPSILON ((mx.z - mn.z) * (1 / 2))⟩,
    xAxis := ⟨1, 0, 0⟩, yAxis := ⟨0, 1, 0⟩, zAxis := ⟨0, 0, 1⟩ }

/-- `IdentityProjection.scalePointToSurface`: sets `worldPoint.z = 0` and
returns the point (the source mutates in place; the embedding returns the
updated value). -/
def scalePointToSurface (worldPoint : Vector3Like) : Vector3Like :=
  { worldPoint with z := 0 }

/-- `IdentityProjection.groundDistance`. -/
def groundDistance (worldPoint : Vector3Like) : ℝ :=
  worldPoint.z

/-- `IdentityProjection.surfaceNormal` (with no caller-provided result). -/
def surfaceNormal (_worldPoint : Vector3Like) : Vector3Like :=
  ⟨0, 0, 1⟩

end IdentityProjection

/-! ### Helper lemmas about the decoder -/

lemma buildRing_positions_length (left top scale R extent : ℚ)
    (outline : List VTJsonPosition) :
    (buildRing left top scale R extent outline).positions.length = outline.length := by
  simp [buildRing]

lemma buildRing_outlines_length (left top scale R extent : ℚ)
    (outline : List VTJsonPosition) :
    (buildRing left top scale R extent outline).outlines.length = outline.length := by
  simp [buildRing]

/-- With the accumulation guard off (first ring of a polygon), the bounding box
keeps its initial value and can never equal the full tile. -/
lemma ringCoversTile_of_guard_false (extent : ℚ) (outline : List VTJsonPosition) :
    ringCoversTile extent false outline = false := by
  unfold ringCoversTile
  have hfold : ∀ (l : List VTJsonPosition) (st : RingBBox),
      l.foldl
        (fun (st : RingBBox) p =>
          if false then
            { minX := minOpt st.minX p.1, minY := minOpt st.minY p.2,
              maxX := max st.maxX p.1, maxY := max st.maxY p.2 }
          else st) st = st := by
    intro l
    induction l with
    | nil => intro st; rfl
    | cons a l ih => intro st; exact ih st
  rw [hfold]
  simp

/-- If the ring loop finishes without invalidating the polygon, the collected
rings are exactly the input rings, each processed by `buildRing`, appended to
the accumulator. -/
lemma processRings_eq_append (left top scale R extent : ℚ) :
    ∀ (rings : List (List VTJsonPosition)) (acc rs : List IRing),
      processRings left top scale R extent rings acc = some rs →
      rs = acc ++ rings.map (buildRing left top scale R extent) := by
  intro rings
  induction rings with
  | nil =>
    intro acc rs h
    simp only [processRings, Option.some_inj] at h
    simp [h]
  | cons outline rest ih =>
    intro acc rs h
    unfold processRings at h
    by_cases hc :
        ringCoversTile extent (decide (0 < acc.length)) outline = true
    · rw [if_pos hc] at h
      exact absurd h (by simp)
    · rw [if_neg hc] at h
      have := ih (acc ++ [buildRing left top scale R extent outline]) rs h
      simpa [List.append_assoc] using this

/-- If some ring at a position making the guard active spans the full tile,
the ring loop invalidates the polygon. -/
lemma processRings_none_of_cover (left top scale R extent : ℚ) :
    ∀ (rings : List (List VTJsonPosition)) (acc : List IRing) (i : ℕ)
      (h : i < rings.length), 0 < acc.length + i →
      ringCoversTile extent true (rings.get ⟨i, h⟩) = true →
      processRings left top scale R extent rings acc = none := by
  intro rings
  induction rings with
  | nil =>
    intro acc i h
    exact absurd h (by simp)
  | cons outline rest ih =>
    intro acc i h hpos hcov
    unfold processRings
    cases i with
    | zero =>
      have hacc : 0 < acc.length := by simpa using hpos
      have hguard : decide (0 < acc.length) = true := by simpa using hacc
      have hcov0 : ringCoversTile extent true outline = true := hcov
      rw [hguard, hcov0]
      simp
    | succ j =>
      have hj : j < rest.length := by simpa using h
      have hcovj : ringCoversTile extent true (rest.get ⟨j, hj⟩) = true := hcov
      by_cases hc :
          ringCoversTile extent (decide (0 < acc.length)) outline = true
      · rw [if_pos hc]
      · rw [if_neg hc]
        exact ih (acc ++ [buildRing left top scale R extent outline]) j hj
          (by simp) hcovj

/-- The decoder position formula agrees with the formula as the spec writes
it. -/
lemma worldPos_eq_specWorldPos (lat2tile : ℚ → ℕ → ℚ) (R : ℚ) (level : ℕ)
    (west north : ℚ) (p : VTJsonPosition) :
    worldPos (tileLeft level west) (tileTop lat2tile level north) (tileScale level) R p =
      specWorldPos lat2tile R level west north p := by
  rfl

/-- The `Polygon` branch of `processFeature`, written with the match on the
result of the ring loop exposed. -/
lemma processFeature_polygon (lat2tile : ℚ → ℕ → ℚ) (R : ℚ) (layer : String)
    (level : ℕ) (west north : ℚ) (id : String) (tags : List (String × ℚ))
    (rings : List (List VTJsonPosition)) :
    processFeature lat2tile R layer level west north ⟨.paths rings, id, tags, .Polygon⟩ =
      match processRings (tileLeft level west) (tileTop lat2tile level north)
          (tileScale level) R 4096 rings [] with
      | some rs =>
        [ProcessorCall.polygonFeature layer [{ rings := rs }]
          (mkEnv tags layer "polygon" level) level]
      | none => [] := rfl

/-! ### The claims -/

/-- C1: if any ring at index `≥ 1` of a polygon feature has a tile-local
bounding box exactly equal to `(0, 0, 4096, 4096)`, the whole feature is
discarded and the geometry processor receives zero calls for it; a polygon
whose only ring (index 0) has that bounding box is still emitted, because the
bounding-box accumulation is guarded by the number of already-collected
rings and never applies to the first ring. -/
theorem C1_fullTile_ring_discards_polygon (lat2tile : ℚ → ℕ → ℚ) (R : ℚ)
    (layer : String) (level : ℕ) (west north : ℚ) (id₁ id₂ : String)
    (tags₁ tags₂ : List (String × ℚ)) (rings : List (List VTJsonPosition))
    (r : List VTJsonPosition) (i : ℕ) (h : i < rings.length) (h1 : 1 ≤ i)
    (hcov : ringCoversTile 4096 true (rings.get ⟨i, h⟩) = true)
    (hr : ringCoversTile 4096 true r = true) :
    processFeature lat2tile R layer level west north
        ⟨.paths rings, id₁, tags₁, .Polygon⟩ = [] ∧
    processFeature lat2tile R layer level west north
        ⟨.paths [r], id₂, tags₂, .Polygon⟩ =
      [ProcessorCall.polygonFeature layer
        [{ rings := [buildRing (tileLeft level west) (tileTop lat2tile level north)
            (tileScale level) R 4096 r] }]
        (mkEnv tags₂ layer "polygon" level) level] := by
  constructor
  · have hnone : processRings (tileLeft level west) (tileTop lat2tile level north)
        (tileScale level) R 4096 rings [] = none :=
      processRings_none_of_cover _ _ _ _ _ rings [] i h (by omega) hcov
    rw [processFeature_polygon, hnone]
  · have hsingle : processRings (tileLeft level west) (tileTop lat2tile level north)
        (tileScale level) R 4096 [r] [] =
        some [buildRing (tileLeft level west) (tileTop lat2tile level north)
          (tileScale level) R 4096 r] := by
      unfold processRings
      have hguard : (decide (0 < ([] : List IRing).length)) = false := rfl
      rw [hguard, ringCoversTile_of_guard_false]
      simp [processRings]
    rw [processFeature_polygon, hsingle]

/-- Witness for C1: a two-ring polygon whose second ring spans the full tile
is dropped entirely (first conclusion of the theorem at a concrete input;
the theorem additionally shows the same ring as the only ring is emitted). -/
theorem C1_witness :
    processFeature (fun _ _ => 0) 1 "water" 2 0 0
        ⟨.paths [[(10, 10), (20, 10), (20, 20)],
          [(0, 0), (4096, 0), (4096, 4096), (0, 4096)]], "a", [], .Polygon⟩ = [] :=
  (C1_fullTile_ring_discards_polygon (fun _ _ => 0) 1 "water" 2 0 0 "a" "b" [] []
    [[(10, 10), (20, 10), (20, 20)], [(0, 0), (4096, 0), (4096, 4096), (0, 4096)]]
    [(0, 0), (4096, 0), (4096, 4096), (0, 4096)] 1 (by decide) (by decide)
    (by decide) (by decide)).1

/-- C2: for every polygon ring and edge `i` (connecting vertex `i` to vertex
`(i + 1) mod ringLength`), the outline flag is `false` iff both endpoints
have `x = 0`, or both `x = 4096`, or both `y = 0`, or both `y = 4096`. -/
theorem C2_outline_flag_iff (left top scale R : ℚ) (outline : List VTJsonPosition)
    (i : ℕ) (h : i < outline.length) :
    (buildRing left top scale R 4096 outline).outlines.getD i true = false ↔
      ((outline.getD i (0, 0)).1 = 0 ∧
          (outline.getD ((i + 1) % outline.length) (0, 0)).1 = 0) ∨
        ((outline.getD i (0, 0)).1 = 4096 ∧
          (outline.getD ((i + 1) % outline.length) (0, 0)).1 = 4096) ∨
        ((outline.getD i (0, 0)).2 = 0 ∧
          (outline.getD ((i + 1) % outline.length) (0, 0)).2 = 0) ∨
        ((outline.getD i (0, 0)).2 = 4096 ∧
          (outline.getD ((i + 1) % outline.length) (0, 0)).2 = 4096) := by
  have hflag : (buildRing left top scale R 4096 outline).outlines.getD i true =
      outlineFlag 4096 outline i := by
    simp [buildRing, List.getD_eq_getElem?_getD, List.getElem?_map,
      List.getElem?_range h]
  rw [hflag]
  unfold outlineFlag
  simp [decide_eq_true_eq]
  tauto

/-- Witness for C2: the bottom edge of a square ring lies on the border
`y = 0`, so its outline flag is `false`. -/
theorem C2_witness :
    (buildRing 0 0 1 1 4096
        [(0, 0), (4096, 0), (4096, 4096), (0, 4096)]).outlines.getD 0 true = false :=
  (C2_outline_flag_iff 0 0 1 1 [(0, 0), (4096, 0), (4096, 4096), (0, 4096)] 0
    (by decide)).mpr (by decide)

/-- C3: every world-space position emitted by `process` — for point, line and
polygon geometry alike — is obtained from the tile-local pair `(x, y)` by the
formula `(((left + x) / scale) * R, ((top + y) / scale) * R, 0)` with
`scale = 2^(level + log2 4096)`, `left = ((west + 180) / 360) * scale`,
`top = lat2tile north (level + log2 4096)` (`specWorldPos`). -/
theorem C3_world_space_formula (lat2tile : ℚ → ℕ → ℚ) (R : ℚ) (layer : String)
    (level : ℕ) (west north : ℚ) (id₁ id₂ id₃ : String)
    (tags : List (String × ℚ)) (ps : List VTJsonPosition)
    (ls rings : List (List VTJsonPosition)) (rs : List IRing)
    (hsome : processRings (tileLeft level west) (tileTop lat2tile level north)
      (tileScale level) R 4096 rings [] = some rs) :
    processFeature lat2tile R layer level west north
        ⟨.positions ps, id₁, tags, .Point⟩ =
      ps.map (fun p =>
        ProcessorCall.pointFeature layer [specWorldPos lat2tile R level west north p]
          (mkEnv tags layer "point" level) level) ∧
    processFeature lat2tile R layer level west north
        ⟨.paths ls, id₂, tags, .LineString⟩ =
      ls.map (fun lineGeometry =>
        ProcessorCall.lineFeature layer
          [{ positions := lineGeometry.map (specWorldPos lat2tile R level west north) }]
          (mkEnv tags layer "line" level) level) ∧
    processFeature lat2tile R layer level west north
        ⟨.paths rings, id₃, tags, .Polygon⟩ =
      [ProcessorCall.polygonFeature layer
        [{ rings := rings.map (fun outline =>
            { positions := outline.map (specWorldPos lat2tile R level west north),
              outlines := (List.range outline.length).map (outlineFlag 4096 outline) }) }]
        (mkEnv tags layer "polygon" level) level] := by
  refine ⟨rfl, rfl, ?_⟩
  have hrs := processRings_eq_append _ _ _ _ _ rings [] rs hsome
  simp only [List.nil_append] at hrs
  rw [processFeature_polygon, hsome, hrs]
  rfl

/-- Witness for C3: a concrete point feature decoded at zoom level 0. -/
theorem C3_witness :
    processFeature (fun _ _ => 0) 1 "roads" 0 0 0
        ⟨.positions [(1, 2)], "p", [], .Point⟩ =
      [(1, 2)].map (fun p =>
        ProcessorCall.pointFeature "roads" [specWorldPos (fun _ _ => 0) 1 0 0 0 p]
          (mkEnv [] "roads" "point" 0) 0) :=
  (C3_world_space_formula (fun _ _ => 0) 1 "roads" 0 0 0 "p" "q" "r" [] [(1, 2)]
    [] [] [] rfl).1

/-- C4: for every geo point with longitude in `(-180, 180)` and latitude in
`(-90, 90)`, the planar projection round-trip
`unprojectPoint (projectPoint p)` reproduces `p` exactly (hence within the
claimed `1e-9` radians): longitude and latitude are reproduced exactly, and
the altitude is the input altitude (defaulted to `0` when absent, as
`projectPoint` maps an absent altitude to `z = 0`). -/
theorem C4_planar_roundtrip (p : GeoCoordinates)
    (hlon₁ : -180 < p.longitude) (hlon₂ : p.longitude < 180)
    (hlat₁ : -90 < p.latitude) (hlat₂ : p.latitude < 90) :
    (IdentityProjection.unprojectPoint (IdentityProjection.projectPoint p)).longitude =
        p.longitude ∧
    (IdentityProjection.unprojectPoint (IdentityProjection.projectPoint p)).latitude =
        p.latitude ∧
    (IdentityProjection.unprojectPoint (IdentityProjection.projectPoint p)).altitude =
        some (p.altitude.getD 0) := by
  have hpi : Real.pi ≠ 0 := Real.pi_ne_zero
  refine ⟨?_, ?_, rfl⟩ <;>
  · simp only [IdentityProjection.unprojectPoint, IdentityProjection.projectPoint,
      IdentityProjection.GeoCoordinates.fromRadians, IdentityProjection.DEG2RAD]
    field_simp

/-- Witness for C4: the round-trip at the concrete point `(45°N, 90°E, 7 m)`. -/
theorem C4_witness :
    (IdentityProjection.unprojectPoint
        (IdentityProjection.projectPoint ⟨45, 90, some 7⟩)).longitude = (90 : ℝ) ∧
    (IdentityProjection.unprojectPoint
        (IdentityProjection.projectPoint ⟨45, 90, some 7⟩)).latitude = (45 : ℝ) ∧
    (IdentityProjection.unprojectPoint
        (IdentityProjection.projectPoint ⟨45, 90, some 7⟩)).altitude = some (7 : ℝ) :=
  C4_planar_roundtrip ⟨45, 90, some 7⟩ (by norm_num) (by norm_num) (by norm_num)
    (by norm_num)

/-- C5 counterexample: the claim says the z half-extent of the box returned by
`projectBox` is never exactly `0` for whichever result shape the caller
requests; but for the axis-aligned result shape and a flat `GeoBox`
(`minAltitude = maxAltitude = 5`) the z half-extent is exactly `0` — the
epsilon clamp exists only in the oriented-box branch. -/
theorem C5_counterexample :
    ((IdentityProjection.projectBoxBox3 ⟨10, 20, 30, 40, 5, 5⟩).max.z -
        (IdentityProjection.projectBoxBox3 ⟨10, 20, 30, 40, 5, 5⟩).min.z) * (1 / 2) = 0 := by
  simp [IdentityProjection.projectBoxBox3, IdentityProjection.projectPoint]

/-- C5 (amended): the z half-extent of the oriented-box result of
`projectBox` is clamped to `Number.EPSILON` and hence strictly positive for
every `GeoBox`, including when `minAltitude = maxAltitude`; the axis-aligned
result copies the projected corners unchanged, so its z extent is exactly
`0` whenever `minAltitude = maxAltitude`. -/
theorem C5_oriented_z_clamped (geoBox : GeoBox) :
    0 < (IdentityProjection.projectBoxOriented geoBox).extents.z ∧
    (geoBox.minAltitude = geoBox.maxAltitude →
      (IdentityProjection.projectBoxBox3 geoBox).max.z -
        (IdentityProjection.projectBoxBox3 geoBox).min.z = 0) := by
  constructor
  · have h1 : (0 : ℝ) < EPSILON := by
      unfold EPSILON
      positivity
    have h2 : (IdentityProjection.projectBoxOriented geoBox).extents.z =
        max EPSILON ((geoBox.maxAltitude - geoBox.minAltitude) * (1 / 2)) := by
      simp [IdentityProjection.projectBoxOriented, IdentityProjection.projectPoint]
    rw [h2]
    exact lt_of_lt_of_le h1 (le_max_left _ _)
  · intro hflat
    simp [IdentityProjection.projectBoxBox3, IdentityProjection.projectPoint, hflat]

/-- Witness for C5 (amended): at a concrete flat `GeoBox`. -/
theorem C5_witness :
    0 < (IdentityProjection.projectBoxOriented ⟨1, 2, 3, 4, 7, 7⟩).extents.z ∧
    (IdentityProjection.projectBoxBox3 ⟨1, 2, 3, 4, 7, 7⟩).max.z -
      (IdentityProjection.projectBoxBox3 ⟨1, 2, 3, 4, 7, 7⟩).min.z = 0 :=
  ⟨(C5_oriented_z_clamped ⟨1, 2, 3, 4, 7, 7⟩).1,
    (C5_oriented_z_clamped ⟨1, 2, 3, 4, 7, 7⟩).2 rfl⟩

/-- C6: `canProcess` returns `false` for every raw binary buffer and for
every object in which any of `features`, `source`, `x`, `y`, `z` is absent;
it returns `true` for every object exposing all of them.  It is a total Lean
function, hence a pure predicate that never raises. -/
theorem C6_canProcess_boundary (n : ℕ) (t u : VTJsonTileData)
    (habsent : t.features = none ∨ t.source = none ∨ t.x = none ∨ t.y = none ∨
      t.z = none)
    (hall : u.features ≠ none ∧ u.source ≠ none ∧ u.x ≠ none ∧ u.y ≠ none ∧
      u.z ≠ none) :
    canProcess (.arrayBuffer n) = false ∧
    canProcess (.obj t) = false ∧
    canProcess (.obj u) = true := by
  obtain ⟨h1, h2, h3, h4, h5⟩ := hall
  refine ⟨rfl, ?_, ?_⟩
  · show (if _ then false else true) = false
    rw [if_pos habsent]
  · show (if _ then false else true) = true
    rw [if_neg]
    simp [h1, h2, h3, h4, h5]

/-- Witness for C6: a raw buffer, an object missing `x`, and a well-formed
tile object. -/
theorem C6_witness :
    canProcess (.arrayBuffer 4) = false ∧
    canProcess (.obj ⟨some [], some [], none, some 0, some 0⟩) = false ∧
    canProcess (.obj ⟨some [], some [], some 1, some 2, some 3⟩) = true :=
  C6_canProcess_boundary 4 ⟨some [], some [], none, some 0, some 0⟩
    ⟨some [], some [], some 1, some 2, some 3⟩ (by simp) (by simp)

/-- C7: a Point feature with `n` tile-local coordinate pairs yields exactly
`n` separate `processPointFeature` calls, each carrying one single
world-space position, the feature's shared environment and the tile's zoom
level; `process` on a tile holding just that feature makes exactly those
calls. -/
theorem C7_point_emission_cardinality (lat2tile : ℚ → ℕ → ℚ) (R : ℚ)
    (layer : String) (level : ℕ) (west north : ℚ) (id : String)
    (tags : List (String × ℚ)) (ps : List VTJsonPosition) :
    processFeature lat2tile R layer level west north
        ⟨.positions ps, id, tags, .Point⟩ =
      ps.map (fun p =>
        ProcessorCall.pointFeature layer
          [worldPos (tileLeft level west) (tileTop lat2tile level north)
            (tileScale level) R p]
          (mkEnv tags layer "point" level) level) ∧
    (processFeature lat2tile R layer level west north
        ⟨.positions ps, id, tags, .Point⟩).length = ps.length ∧
    process lat2tile R ⟨[⟨.positions ps, id, tags, .Point⟩], layer⟩ level west north =
      processFeature lat2tile R layer level west north
        ⟨.positions ps, id, tags, .Point⟩ := by
  refine ⟨rfl, ?_, ?_⟩
  · show (ps.map _).length = ps.length
    simp
  · simp [process]

/-- C8: a feature whose geometry type is `Unknown` yields zero geometry
processor calls (and, the decoder being a total function, no error),
whatever the shape of its geometry payload. -/
theorem C8_unknown_silently_skipped (lat2tile : ℚ → ℕ → ℚ) (R : ℚ)
    (layer : String) (level : ℕ) (west north : ℚ) (g : VTJsonGeometry)
    (id : String) (tags : List (String × ℚ)) :
    processFeature lat2tile R layer level west north ⟨g, id, tags, .Unknown⟩ = [] ∧
    process lat2tile R ⟨[⟨g, id, tags, .Unknown⟩], layer⟩ level west north = [] := by
  cases g <;> exact ⟨rfl, rfl⟩

/-- C9: `scalePointToSurface` returns the point with its `z` field set to `0`
and its `x` and `y` fields unchanged (the source performs this update in
place on its argument and returns it). -/
theorem C9_scalePointToSurface_zeroes_z (p : Vector3Like) :
    IdentityProjection.scalePointToSurface p = ⟨p.x, p.y, 0⟩ := rfl

/-- C10: every ring emitted via `processPolygonFeature` has positions and
outlines arrays of exactly equal length, that length being the vertex count
of the input ring; rings with fewer than 3 vertices are passed through
rather than discarded (the output has one ring per input ring). -/
theorem C10_ring_parallel_arrays (left top scale R : ℚ)
    (rings : List (List VTJsonPosition)) (rs : List IRing)
    (hsome : processRings left top scale R 4096 rings [] = some rs) :
    rs.length = rings.length ∧
    ∀ i, i < rings.length →
      (rs.getD i ⟨[], []⟩).positions.length = (rings.getD i []).length ∧
      (rs.getD i ⟨[], []⟩).outlines.length = (rings.getD i []).length := by
  have hrs := processRings_eq_append _ _ _ _ _ rings [] rs hsome
  simp only [List.nil_append] at hrs
  subst hrs
  have hget : ∀ i : ℕ,
      (rings.map (buildRing left top scale R 4096)).getD i ⟨[], []⟩ =
        buildRing left top scale R 4096 (rings.getD i []) := by
    intro i
    rw [List.getD_eq_getElem?_getD, List.getD_eq_getElem?_getD, List.getElem?_map]
    cases hx : rings[i]? with
    | none => rfl
    | some o => rfl
  refine ⟨by simp, ?_⟩
  intro i hi
  rw [hget i, buildRing_positions_length, buildRing_outlines_length]
  exact ⟨rfl, rfl⟩

/-- Witness for C10: a polygon with a 2-vertex ring and a 3-vertex ring is
emitted with both rings, their positions and outlines arrays matching the
input vertex counts. -/
theorem C10_witness :
    ([buildRing 0 0 1 1 4096 [(1, 1), (2, 2)]] : List IRing).length =
      ([[(1, 1), (2, 2)]] : List (List VTJsonPosition)).length ∧
    (([buildRing 0 0 1 1 4096 [(1, 1), (2, 2)]] : List IRing).getD 0
          ⟨[], []⟩).positions.length =
      (([[(1, 1), (2, 2)]] : List (List VTJsonPosition)).getD 0 []).length :=
  have hsome : processRings 0 0 1 1 4096 [[(1, 1), (2, 2)]] [] =
      some [buildRing 0 0 1 1 4096 [(1, 1), (2, 2)]] := by
    have e0 : (decide (0 < ([] : List IRing).length)) = false := rfl
    simp only [processRings, e0, ringCoversTile_of_guard_false, Bool.false_eq_true,
      if_false, List.nil_append]
  ⟨(C10_ring_parallel_arrays 0 0 1 1 [[(1, 1), (2, 2)]]
      [buildRing 0 0 1 1 4096 [(1, 1), (2, 2)]] hsome).1,
    ((C10_ring_parallel_arrays 0 0 1 1 [[(1, 1), (2, 2)]]
      [buildRing 0 0 1 1 4096 [(1, 1), (2, 2)]] hsome).2 0 (by decide)).1⟩

end HarpGL
